import Mathlib

/-!
# Verification of the world-streaming grid of `AdvancedWorldSystem.ts`

This file is a shallow embedding of the chunk-streaming logic of
`src/indian-frontier-aaa/src/game/AdvancedWorldSystem.ts` together with the
terrain-height and biome functions of its `worldGenerator`, and proofs of the
behavioural properties stated in the repository's specification.

Modelling conventions:

* JavaScript numbers holding positions and sizes are modelled as rationals
  (`ℚ`); chunk coordinates, which are always produced by `Math.floor`, are
  modelled as integers (`ℤ`).  The terrain-height function, built from
  `Math.sin` / `Math.cos`, is modelled over the reals (`ℝ`).
* The `chunks : Map<string, any>` field is modelled as an association list
  keyed by the integer coordinate pair; the string key `"${x},${z}"` is in
  bijection with the pair `(x, z)` (it is produced from the pair and parsed
  back with `split(',')`), so the pair itself is used as the key.
  `Map.set` is modelled by `mapSet` with JavaScript `Map` semantics
  (insertion order preserved, `set` on an existing key overwrites in place)
  and `Map.delete` over a collected key list by filtering.
* The `loadedChunks : Set<string>` field is modelled as a duplicate-free
  list of coordinate pairs in insertion order, mirroring JavaScript `Set`
  iteration semantics; `Set.add` appends when absent, `Set.delete` over a
  collected key list is filtering.  `Finset`s are used in statements (via
  `List.toFinset`) where the specification speaks of the resident *set*.
* Graphics-only state (the Babylon `Scene`, materials, physics impostors, the
  static `environments` catalog) carries no behaviour relevant to the claims
  and is not part of the state; of the generated chunk we retain its biome,
  its world-space position and its mesh's subdivision count.
-/

namespace AdvancedWorld

/-- The Babylon `Vector3` type: only the numeric components are modelled. -/
structure Vector3 where
  x : ℚ
  y : ℚ
  z : ℚ
  deriving DecidableEq, Repr

/-- The zero vector `Vector3.Zero()`. -/
def Vector3.zero : Vector3 := ⟨0, 0, 0⟩

/-- The `WorldConfig` interface (lines 25–31 of the source). -/
structure WorldConfig where
  chunkSize : ℚ
  renderDistance : ℤ
  maxChunks : ℤ
  enableDynamicLoading : Bool
  enableLOD : Bool
  deriving DecidableEq, Repr

/-- The biome classification returned by `worldGenerator.getBiome`. -/
inductive Biome where
  | village
  | forest
  | mountains
  | desert
  deriving DecidableEq, Repr

/-- Source function `worldGenerator.getBiome` (lines 84–91): classify by the
straight-line distance `Math.sqrt(x*x + z*z)` from the world origin. -/
noncomputable def getBiome (x z : ℝ) : Biome :=
  let distance := Real.sqrt (x * x + z * z)
  if distance < 100 then .village
  else if distance < 300 then .forest
  else if distance < 500 then .mountains
  else .desert

/-- Decidable form of `getBiome` on rational inputs, comparing squared
distances instead of taking a square root; `getBiomeQ_eq` proves it agrees
with the literal `getBiome`.  The executable state machine uses this form. -/
def getBiomeQ (x z : ℚ) : Biome :=
  if x * x + z * z < 100 * 100 then .village
  else if x * x + z * z < 300 * 300 then .forest
  else if x * x + z * z < 500 * 500 then .mountains
  else .desert

/-- A resident chunk's retained data: the record returned by
`worldGenerator.generateChunk` (source lines 94–127), keeping the biome, the
mesh's world position `(chunkX * chunkSize, 0, chunkZ * chunkSize)` and the
mesh's constant subdivision count. -/
structure Chunk where
  biome : Biome
  posX : ℚ
  posZ : ℚ
  subdivisions : ℕ
  deriving DecidableEq, Repr

/-- Source function `worldGenerator.generateChunk` (lines 94–127): builds the ground
mesh with `subdivisions: 50` at `(chunkX * chunkSize, 0, chunkZ * chunkSize)`
and classifies the biome at `(chunkX * chunkSize, chunkZ * chunkSize)` — the
mesh's centre, since `CreateGround` centres the mesh at its position. -/
def generateChunk (cfg : WorldConfig) (chunkX chunkZ : ℤ) : Chunk :=
  { biome := getBiomeQ (chunkX * cfg.chunkSize) (chunkZ * cfg.chunkSize)
    posX := chunkX * cfg.chunkSize
    posZ := chunkZ * cfg.chunkSize
    subdivisions := 50 }

/-- Chunk keys: the integer coordinate pair standing for the string
`"${x},${z}"`. -/
abbrev ChunkKey := ℤ × ℤ

/-- JavaScript `Map.set` on an association list: overwrite in place if the
key is present, otherwise append. -/
def mapSet (m : List (ChunkKey × Chunk)) (k : ChunkKey) (v : Chunk) :
    List (ChunkKey × Chunk) :=
  if m.any (fun p => p.1 = k) then
    m.map (fun p => if p.1 = k then (k, v) else p)
  else
    m ++ [(k, v)]

/-- The mutable state of `AdvancedWorldSystem` relevant to streaming:
`chunks`, `playerPosition` and `loadedChunks` (source lines 36–38). -/
structure WorldState where
  chunks : List (ChunkKey × Chunk)
  playerPosition : Vector3
  loadedChunks : List ChunkKey
  deriving DecidableEq

/-- The state created by the constructor: empty maps, player at the origin. -/
def initialState : WorldState :=
  { chunks := [], playerPosition := Vector3.zero, loadedChunks := [] }

/-- The player's current cell, `(Math.floor(x / chunkSize),
Math.floor(z / chunkSize))` (source lines 690–691). -/
def playerCell (cfg : WorldConfig) (s : WorldState) : ChunkKey :=
  (⌊s.playerPosition.x / cfg.chunkSize⌋, ⌊s.playerPosition.z / cfg.chunkSize⌋)

/-- The Chebyshev distance `Math.max(Math.abs(x - px), Math.abs(z - pz))`
used by `unloadDistantChunks` (source line 725). -/
def chebDist (c p : ChunkKey) : ℤ :=
  max |c.1 - p.1| |c.2 - p.2|

/-- The square of cells at Chebyshev distance at most `r` from `p`. -/
def chebBall (p : ChunkKey) (r : ℤ) : Finset ChunkKey :=
  Finset.Icc (p.1 - r) (p.1 + r) ×ˢ Finset.Icc (p.2 - r) (p.2 + r)

/-- Source function `loadChunk` (lines 708–718): a no-op when the key is already in
`loadedChunks`; otherwise generates the chunk, stores it in `chunks` and adds
the key to `loadedChunks`. -/
def loadChunk (cfg : WorldConfig) (s : WorldState) (chunkX chunkZ : ℤ) :
    WorldState :=
  let chunkKey : ChunkKey := (chunkX, chunkZ)
  if chunkKey ∈ s.loadedChunks then s
  else
    { s with
      chunks := mapSet s.chunks chunkKey (generateChunk cfg chunkX chunkZ)
      loadedChunks := s.loadedChunks ++ [chunkKey] }

/-- The integer range `a, a+1, …, b` traversed by a `for` loop. -/
def intRange (a b : ℤ) : List ℤ :=
  (List.range (b + 1 - a).toNat).map (fun (i : ℕ) => a + (i : ℤ))

/-- The cells visited by the nested loops of `updateChunkLoading` (source
lines 694–702): `x` from `chunkX - renderDistance` to `chunkX +
renderDistance`, `z` likewise, flattened in loop order. -/
def cellsInRange (px pz rd : ℤ) : List ChunkKey :=
  (intRange (px - rd) (px + rd)).flatMap
    (fun x => (intRange (pz - rd) (pz + rd)).map (fun z => (x, z)))

/-- The load pass of `updateChunkLoading` (source lines 694–702): call
`loadChunk` on every cell within `renderDistance` of the player's cell (the
`if (!loadedChunks.has(...))` guard is subsumed by `loadChunk`'s own
guard). -/
def loadPhase (cfg : WorldConfig) (s : WorldState) : WorldState :=
  (cellsInRange (playerCell cfg s).1 (playerCell cfg s).2
      cfg.renderDistance).foldl
    (fun t c => loadChunk cfg t c.1 c.2) s

/-- Source function `unloadDistantChunks` (lines 720–742): collect every loaded key at
Chebyshev distance `> renderDistance + 1` from the player's cell, then
dispose each one's mesh, remove it from `chunks` and from `loadedChunks`. -/
def unloadDistantChunks (cfg : WorldConfig) (s : WorldState)
    (playerChunkX playerChunkZ : ℤ) : WorldState :=
  let chunksToUnload : List ChunkKey :=
    s.loadedChunks.filter
      (fun c => chebDist c (playerChunkX, playerChunkZ) >
        cfg.renderDistance + 1)
  { s with
    chunks := s.chunks.filter (fun p => p.1 ∉ chunksToUnload)
    loadedChunks := s.loadedChunks.filter (fun c => c ∉ chunksToUnload) }

/-- Source function `updateChunkLoading` (lines 689–706), the body of one `tick()`:
compute the player's cell, run the load pass, then unload distant chunks. -/
def updateChunkLoading (cfg : WorldConfig) (s : WorldState) : WorldState :=
  unloadDistantChunks cfg (loadPhase cfg s)
    (playerCell cfg s).1 (playerCell cfg s).2

/-- One `tick()`: the spec's name for one invocation of `updateChunkLoading`
(registered on `onBeforeRenderObservable`, source lines 682–687). -/
def tick (cfg : WorldConfig) (s : WorldState) : WorldState :=
  updateChunkLoading cfg s

/-- Source function `updatePlayerPosition` (lines 744–746). -/
def updatePlayerPosition (s : WorldState) (position : Vector3) : WorldState :=
  { s with playerPosition := position }

/-- The resident-cell set: the loaded chunk keys, as a set. -/
def residentSet (s : WorldState) : Finset ChunkKey :=
  s.loadedChunks.toFinset

/-- The cells a `tick()` from state `s` creates: keys in `loadedChunks` after
the load pass that were not there before. -/
def tickCreated (cfg : WorldConfig) (s : WorldState) : List ChunkKey :=
  (loadPhase cfg s).loadedChunks.filter (fun c => c ∉ s.loadedChunks)

/-- The cells a `tick()` from state `s` destroys: the `chunksToUnload` list
computed by `unloadDistantChunks` on the state after the load pass. -/
def tickDestroyed (cfg : WorldConfig) (s : WorldState) : List ChunkKey :=
  (loadPhase cfg s).loadedChunks.filter
    (fun c => chebDist c (playerCell cfg s) > cfg.renderDistance + 1)

/-- States reachable through the public operations from the freshly
constructed system. -/
inductive Reachable (cfg : WorldConfig) : WorldState → Prop where
  | init : Reachable cfg initialState
  | tick {s : WorldState} : Reachable cfg s → Reachable cfg (tick cfg s)
  | move {s : WorldState} (p : Vector3) :
      Reachable cfg s → Reachable cfg (updatePlayerPosition s p)

/-- The key list of the `chunks` map, in insertion order. -/
def chunkKeys (s : WorldState) : List ChunkKey :=
  s.chunks.map Prod.fst

/-- JavaScript truncation toward zero, as used by the `%` operator. -/
noncomputable def jsTrunc (a : ℝ) : ℝ :=
  if 0 ≤ a then (⌊a⌋ : ℝ) else (⌈a⌉ : ℝ)

/-- The JavaScript remainder `a % 1`: `a` minus its truncation toward zero,
so the result carries the sign of `a`. -/
noncomputable def jsMod1 (a : ℝ) : ℝ :=
  a - jsTrunc a

/-- Source function `worldGenerator.getHeight` (lines 66–81): normalise the world
coordinates by `(x / 100) % 1`, then accumulate three sinusoidal octaves into
`height`.  The `NoiseProceduralTexture` allocated at the top of the function
is never read — the returned value depends only on `x` and `z`. -/
noncomputable def getHeight (x z : ℝ) : ℝ :=
  let nx := jsMod1 (x / 100)
  let nz := jsMod1 (z / 100)
  let height0 : ℝ := 0
  let height1 := height0 + Real.sin (nx * 10) * Real.cos (nz * 10) * 20
  let height2 := height1 + Real.sin (nx * 20) * Real.cos (nz * 20) * 10
  let height3 := height2 + Real.sin (nx * 40) * Real.cos (nz * 40) * 5
  height3

/-- Modelled from the spec's words (not the source): "a sum of three
sinusoidal octaves … amplitudes 20/10/5, frequency multipliers 10/20/40 after
normalizing x/z by a period of 100", with `nx = (x/100) mod 1` read as the
source language's remainder operator (the only `mod` the code performs). -/
noncomputable def specHeight (x z : ℝ) : ℝ :=
  Real.sin (jsMod1 (x / 100) * 10) * Real.cos (jsMod1 (z / 100) * 10) * 20 +
    Real.sin (jsMod1 (x / 100) * 20) * Real.cos (jsMod1 (z / 100) * 20) * 10 +
    Real.sin (jsMod1 (x / 100) * 40) * Real.cos (jsMod1 (z / 100) * 40) * 5

/-- Source function `applyHeightMap` (lines 131–146): each vertex at local offset
`(vx, vz)` of chunk `(chunkX, chunkZ)` gets height
`getHeight(vx + chunkX * chunkSize, vz + chunkZ * chunkSize)`. -/
noncomputable def vertexHeight (cfg : WorldConfig) (chunkX chunkZ : ℤ)
    (vx vz : ℝ) : ℝ :=
  getHeight (vx + (chunkX : ℝ) * (cfg.chunkSize : ℝ))
    (vz + (chunkZ : ℝ) * (cfg.chunkSize : ℝ))

/-- The configuration of the spec's scenarios: `cellSize = 100`,
`renderDistance = 1` (the remaining fields are exercised by the
configuration-independence theorem). -/
def cfg100 : WorldConfig :=
  { chunkSize := 100, renderDistance := 1, maxChunks := 9,
    enableDynamicLoading := true, enableLOD := true }

/-- Variant of `cfg100` with `chunkSize = 99`: chunk `(1, 0)` is then centred at
straight-line distance 99 from the world origin. -/
def cfg99 : WorldConfig :=
  { chunkSize := 99, renderDistance := 1, maxChunks := 9,
    enableDynamicLoading := true, enableLOD := true }

/-- Variant of `cfg100` with `chunkSize = 101`: chunk `(1, 0)` is then centred at
straight-line distance 101 from the world origin. -/
def cfg101 : WorldConfig :=
  { chunkSize := 101, renderDistance := 1, maxChunks := 9,
    enableDynamicLoading := true, enableLOD := true }

/-- Variant of `cfg100` with `maxChunks = 0`: exercises the absence of a resident-count
cap. -/
def cfgCap0 : WorldConfig :=
  { chunkSize := 100, renderDistance := 1, maxChunks := 0,
    enableDynamicLoading := true, enableLOD := true }

/-- Variant of `cfg100` with `maxChunks`, `enableDynamicLoading`, `enableLOD` all
altered: agrees with `cfg100` on `chunkSize` and `renderDistance` only. -/
def cfgNoExtras : WorldConfig :=
  { chunkSize := 100, renderDistance := 1, maxChunks := 0,
    enableDynamicLoading := false, enableLOD := false }

/-- A reachable state in which the player has just moved two cells to the
east (from cell `(0,0)` to cell `(2,0)`) after a first tick at the origin. -/
def stateMoved : WorldState :=
  updatePlayerPosition (tick cfg100 initialState) ⟨200, 0, 0⟩

/-- A state holding a single resident chunk at `(3, 0)` with the player at
the origin — three cells away, beyond `renderDistance + 1 = 2`. -/
def stateFar : WorldState :=
  { chunks := [((3, 0), generateChunk cfg100 3 0)]
    playerPosition := Vector3.zero
    loadedChunks := [(3, 0)] }

/-- The bookkeeping invariant tying the two residency structures together:
the key list of the `chunks` map coincides with `loadedChunks`, and the keys
are duplicate-free. -/
def GoodState (s : WorldState) : Prop :=
  chunkKeys s = s.loadedChunks ∧ s.loadedChunks.Nodup

/-- The straight-line distance from the world origin to the centre of chunk
`(cx, cz)` — the argument `getBiome` receives from `generateChunk`. -/
noncomputable def centerDist (cfg : WorldConfig) (cx cz : ℤ) : ℝ :=
  Real.sqrt (((cx * cfg.chunkSize : ℚ) : ℝ) * ((cx * cfg.chunkSize : ℚ) : ℝ) +
    ((cz * cfg.chunkSize : ℚ) : ℝ) * ((cz * cfg.chunkSize : ℚ) : ℝ))

/-! ## Basic lemmas about the grid operations -/

theorem WorldState.ext' {a b : WorldState} (h1 : a.chunks = b.chunks)
    (h2 : a.playerPosition = b.playerPosition)
    (h3 : a.loadedChunks = b.loadedChunks) : a = b := by
  cases a
  cases b
  simp_all

theorem getBiomeQ_eq (x z : ℚ) : getBiomeQ x z = getBiome (x : ℝ) (z : ℝ) := by
  have key : ∀ c : ℚ, 0 < c →
      (Real.sqrt ((x : ℝ) * x + (z : ℝ) * z) < (c : ℝ) ↔
        x * x + z * z < c * c) := by
    intro c hc
    have hc' : (0 : ℝ) < (c : ℝ) := by exact_mod_cast hc
    have h1 : Real.sqrt ((x : ℝ) * x + (z : ℝ) * z) < (c : ℝ) ↔
        (x : ℝ) * x + (z : ℝ) * z < (c : ℝ) ^ 2 := Real.sqrt_lt' hc'
    rw [h1]
    constructor
    · intro h
      have : ((x * x + z * z : ℚ) : ℝ) < ((c * c : ℚ) : ℝ) := by
        push_cast
        nlinarith [h]
      exact_mod_cast this
    · intro h
      have h' : ((x * x + z * z : ℚ) : ℝ) < ((c * c : ℚ) : ℝ) := by
        exact_mod_cast h
      push_cast at h'
      nlinarith [h']
  have k100 := key 100 (by norm_num)
  have k300 := key 300 (by norm_num)
  have k500 := key 500 (by norm_num)
  push_cast at k100 k300 k500
  simp only [getBiome, getBiomeQ, k100, k300, k500]

theorem loadChunk_playerPosition (cfg : WorldConfig) (s : WorldState)
    (x z : ℤ) : (loadChunk cfg s x z).playerPosition = s.playerPosition := by
  simp only [loadChunk]
  split_ifs <;> rfl

theorem mem_loadChunk_loadedChunks {cfg : WorldConfig} {s : WorldState}
    {x z : ℤ} {a : ChunkKey} :
    a ∈ (loadChunk cfg s x z).loadedChunks ↔
      a ∈ s.loadedChunks ∨ a = (x, z) := by
  simp only [loadChunk]
  split_ifs with h
  · constructor
    · exact Or.inl
    · rintro (h' | rfl)
      · exact h'
      · exact h
  · simp [List.mem_append]

theorem foldl_loadChunk_playerPosition (cfg : WorldConfig)
    (L : List ChunkKey) (s : WorldState) :
    (L.foldl (fun t c => loadChunk cfg t c.1 c.2) s).playerPosition =
      s.playerPosition := by
  induction L generalizing s with
  | nil => rfl
  | cons c L ih =>
      simp only [List.foldl_cons]
      rw [ih, loadChunk_playerPosition]

theorem mem_foldl_loadChunk {cfg : WorldConfig} (L : List ChunkKey)
    (s : WorldState) (a : ChunkKey) :
    a ∈ (L.foldl (fun t c => loadChunk cfg t c.1 c.2) s).loadedChunks ↔
      a ∈ s.loadedChunks ∨ a ∈ L := by
  induction L generalizing s with
  | nil => simp
  | cons c L ih =>
      simp only [List.foldl_cons, ih, mem_loadChunk_loadedChunks,
        List.mem_cons, Prod.mk.eta]
      tauto

theorem foldl_loadChunk_absorbed {cfg : WorldConfig} (L : List ChunkKey)
    (s : WorldState) (h : ∀ c ∈ L, c ∈ s.loadedChunks) :
    L.foldl (fun t c => loadChunk cfg t c.1 c.2) s = s := by
  induction L with
  | nil => rfl
  | cons c L ih =>
      have hc : (c.1, c.2) ∈ s.loadedChunks := h c (List.mem_cons_self c L)
      simp only [List.foldl_cons]
      rw [show loadChunk cfg s c.1 c.2 = s from by
        simp only [loadChunk]
        rw [if_pos hc]]
      exact ih (fun d hd => h d (List.mem_cons_of_mem _ hd))

theorem mem_intRange {a b y : ℤ} : y ∈ intRange a b ↔ a ≤ y ∧ y ≤ b := by
  unfold intRange
  rw [List.mem_map]
  constructor
  · rintro ⟨i, hi, rfl⟩
    rw [List.mem_range] at hi
    omega
  · intro h
    refine ⟨(y - a).toNat, ?_, ?_⟩
    · rw [List.mem_range]
      omega
    · omega

theorem mem_cellsInRange {px pz rd : ℤ} {c : ChunkKey} :
    c ∈ cellsInRange px pz rd ↔ chebDist c (px, pz) ≤ rd := by
  obtain ⟨cx, cz⟩ := c
  simp only [cellsInRange, List.mem_flatMap, List.mem_map, Prod.mk.injEq,
    mem_intRange, chebDist, max_le_iff, abs_le]
  constructor
  · rintro ⟨x, hx, z, hz, rfl, rfl⟩
    omega
  · rintro ⟨h1, h2⟩
    exact ⟨cx, by omega, cz, by omega, rfl, rfl⟩

theorem mem_chebBall {p c : ChunkKey} {r : ℤ} :
    c ∈ chebBall p r ↔ chebDist c p ≤ r := by
  obtain ⟨cx, cz⟩ := c
  simp only [chebBall, Finset.mem_product, Finset.mem_Icc, chebDist,
    max_le_iff, abs_le]
  omega

theorem loadPhase_playerPosition (cfg : WorldConfig) (s : WorldState) :
    (loadPhase cfg s).playerPosition = s.playerPosition :=
  foldl_loadChunk_playerPosition cfg _ s

theorem mem_loadPhase {cfg : WorldConfig} {s : WorldState} {a : ChunkKey} :
    a ∈ (loadPhase cfg s).loadedChunks ↔
      a ∈ s.loadedChunks ∨
        chebDist a (playerCell cfg s) ≤ cfg.renderDistance := by
  unfold loadPhase
  rw [mem_foldl_loadChunk, mem_cellsInRange, Prod.mk.eta]

theorem tick_playerPosition (cfg : WorldConfig) (s : WorldState) :
    (tick cfg s).playerPosition = s.playerPosition :=
  loadPhase_playerPosition cfg s

theorem playerCell_tick (cfg : WorldConfig) (s : WorldState) :
    playerCell cfg (tick cfg s) = playerCell cfg s := by
  unfold playerCell
  rw [tick_playerPosition]

theorem mem_tick_loadedChunks {cfg : WorldConfig} {s : WorldState}
    {a : ChunkKey} :
    a ∈ (tick cfg s).loadedChunks ↔
      (a ∈ s.loadedChunks ∨
        chebDist a (playerCell cfg s) ≤ cfg.renderDistance) ∧
      chebDist a (playerCell cfg s) ≤ cfg.renderDistance + 1 := by
  show a ∈ (unloadDistantChunks cfg (loadPhase cfg s) _ _).loadedChunks ↔ _
  simp only [unloadDistantChunks, List.mem_filter, decide_eq_true_eq,
    Prod.mk.eta, mem_loadPhase]
  constructor
  · rintro ⟨h1, h2⟩
    refine ⟨h1, ?_⟩
    by_contra hgt
    exact h2 ⟨h1, by omega⟩
  · rintro ⟨h1, h2⟩
    refine ⟨h1, ?_⟩
    rintro ⟨-, h3⟩
    omega

theorem tick_chunks (cfg : WorldConfig) (s : WorldState) :
    (tick cfg s).chunks =
      (loadPhase cfg s).chunks.filter
        (fun p => p.1 ∉ tickDestroyed cfg s) :=
  rfl

theorem tick_loadedChunks_eq (cfg : WorldConfig) (s : WorldState) :
    (tick cfg s).loadedChunks =
      (loadPhase cfg s).loadedChunks.filter
        (fun c => c ∉ tickDestroyed cfg s) :=
  rfl

theorem mem_tickDestroyed {cfg : WorldConfig} {s : WorldState}
    {a : ChunkKey} :
    a ∈ tickDestroyed cfg s ↔
      a ∈ (loadPhase cfg s).loadedChunks ∧
        chebDist a (playerCell cfg s) > cfg.renderDistance + 1 := by
  simp [tickDestroyed, List.mem_filter]

theorem mem_tickCreated {cfg : WorldConfig} {s : WorldState} {a : ChunkKey} :
    a ∈ tickCreated cfg s ↔
      a ∉ s.loadedChunks ∧
        chebDist a (playerCell cfg s) ≤ cfg.renderDistance := by
  simp only [tickCreated, List.mem_filter, decide_eq_true_eq, mem_loadPhase]
  tauto

theorem chebBall_subset_tick (cfg : WorldConfig) (s : WorldState) :
    chebBall (playerCell cfg s) cfg.renderDistance ⊆
      residentSet (tick cfg s) := by
  intro b hb
  rw [mem_chebBall] at hb
  rw [residentSet, List.mem_toFinset, mem_tick_loadedChunks]
  exact ⟨Or.inr hb, by omega⟩

theorem tick_fixed_of (cfg : WorldConfig) (s : WorldState)
    (h1 : ∀ c : ChunkKey,
      chebDist c (playerCell cfg s) ≤ cfg.renderDistance →
        c ∈ s.loadedChunks)
    (h2 : ∀ c ∈ s.loadedChunks,
      chebDist c (playerCell cfg s) ≤ cfg.renderDistance + 1) :
    tick cfg s = s := by
  have hload : loadPhase cfg s = s := by
    unfold loadPhase
    refine foldl_loadChunk_absorbed _ s (fun c hc => ?_)
    rw [mem_cellsInRange, Prod.mk.eta] at hc
    exact h1 c hc
  show unloadDistantChunks cfg (loadPhase cfg s) _ _ = s
  rw [hload]
  have hU : s.loadedChunks.filter
      (fun c => decide (chebDist c (playerCell cfg s) >
        cfg.renderDistance + 1)) = [] := by
    rw [List.filter_eq_nil_iff]
    intro c hc
    simp only [decide_eq_true_eq, not_lt]
    exact h2 c hc
  refine WorldState.ext' ?_ rfl ?_
  · show s.chunks.filter (fun p => p.1 ∉ s.loadedChunks.filter
        (fun c => decide (chebDist c (playerCell cfg s) >
          cfg.renderDistance + 1))) = s.chunks
    rw [hU]
    simp
  · show s.loadedChunks.filter (fun c => c ∉ s.loadedChunks.filter
        (fun c => decide (chebDist c (playerCell cfg s) >
          cfg.renderDistance + 1))) = s.loadedChunks
    rw [hU]
    simp

/-! ## Bookkeeping-invariant lemmas -/

theorem mapSet_append (m : List (ChunkKey × Chunk)) (k : ChunkKey)
    (v : Chunk) (h : ∀ p ∈ m, p.1 ≠ k) : mapSet m k v = m ++ [(k, v)] := by
  unfold mapSet
  rw [if_neg]
  intro hany
  rw [List.any_eq_true] at hany
  rcases hany with ⟨p, hp, hpk⟩
  rw [decide_eq_true_eq] at hpk
  exact h p hp hpk

theorem map_fst_filter_key (m : List (ChunkKey × Chunk))
    (q : ChunkKey → Bool) :
    (m.filter (fun p => q p.1)).map Prod.fst = (m.map Prod.fst).filter q := by
  induction m with
  | nil => rfl
  | cons p m ih =>
      simp only [List.filter_cons, List.map_cons]
      cases hq : q p.1 <;> simp [hq, ih]

theorem loadChunk_good (cfg : WorldConfig) (s : WorldState) (x z : ℤ)
    (h : GoodState s) : GoodState (loadChunk cfg s x z) := by
  obtain ⟨hsync, hnd⟩ := h
  simp only [loadChunk]
  split_ifs with hmem
  · exact ⟨hsync, hnd⟩
  · have hk : ∀ p ∈ s.chunks, p.1 ≠ (x, z) := by
      intro p hp hpk
      apply hmem
      rw [← hsync]
      exact List.mem_map.mpr ⟨p, hp, hpk⟩
    constructor
    · show (mapSet s.chunks (x, z) (generateChunk cfg x z)).map Prod.fst =
        s.loadedChunks ++ [(x, z)]
      rw [mapSet_append _ _ _ hk, List.map_append]
      unfold chunkKeys at hsync
      rw [hsync]
      rfl
    · show (s.loadedChunks ++ [(x, z)]).Nodup
      rw [List.nodup_append]
      refine ⟨hnd, List.nodup_singleton _, ?_⟩
      intro a ha hax
      rw [List.mem_singleton] at hax
      exact hmem (hax ▸ ha)

theorem foldl_loadChunk_good (cfg : WorldConfig) (L : List ChunkKey)
    (s : WorldState) (h : GoodState s) :
    GoodState (L.foldl (fun t c => loadChunk cfg t c.1 c.2) s) := by
  induction L generalizing s with
  | nil => exact h
  | cons c L ih =>
      simp only [List.foldl_cons]
      exact ih _ (loadChunk_good cfg s c.1 c.2 h)

theorem unloadDistantChunks_good (cfg : WorldConfig) (s : WorldState)
    (px pz : ℤ) (h : GoodState s) :
    GoodState (unloadDistantChunks cfg s px pz) := by
  obtain ⟨hsync, hnd⟩ := h
  constructor
  · show (s.chunks.filter _).map Prod.fst = s.loadedChunks.filter _
    rw [map_fst_filter_key s.chunks
      (fun k => decide (k ∉ s.loadedChunks.filter
        (fun c => decide (chebDist c (px, pz) > cfg.renderDistance + 1))))]
    unfold chunkKeys at hsync
    rw [hsync]
  · exact List.Nodup.filter _ hnd

theorem tick_good (cfg : WorldConfig) (s : WorldState) (h : GoodState s) :
    GoodState (tick cfg s) :=
  unloadDistantChunks_good cfg (loadPhase cfg s) _ _
    (foldl_loadChunk_good cfg _ s h)

theorem reachable_goodState {cfg : WorldConfig} {s : WorldState}
    (h : Reachable cfg s) : GoodState s := by
  induction h with
  | init => exact ⟨rfl, List.nodup_nil⟩
  | tick _ ih => exact tick_good _ _ ih
  | move p _ ih => exact ih

/-! ## Claim theorems -/

/-- Claim C8: `updatePlayerPosition` always succeeds and only stores the given
position: the stored player position becomes the argument while the
resident-cell map and the loaded-chunk set are left unchanged; no loading or
unloading occurs until the next tick. -/
theorem updatePlayerPosition_only_stores (s : WorldState) (p : Vector3) :
    (updatePlayerPosition s p).playerPosition = p ∧
    (updatePlayerPosition s p).chunks = s.chunks ∧
    (updatePlayerPosition s p).loadedChunks = s.loadedChunks :=
  ⟨rfl, rfl, rfl⟩

/-- Claim C6: `tick()` is idempotent on the resident set: a second `tick()`
with no intervening player movement performs no creations and no
destructions, and leaves the whole grid state exactly as the first tick left
it. -/
theorem tick_idempotent (cfg : WorldConfig) (s : WorldState) :
    tickCreated cfg (tick cfg s) = [] ∧
    tickDestroyed cfg (tick cfg s) = [] ∧
    tick cfg (tick cfg s) = tick cfg s := by
  have hpc := playerCell_tick cfg s
  have hmem : ∀ c : ChunkKey,
      chebDist c (playerCell cfg s) ≤ cfg.renderDistance →
        c ∈ (tick cfg s).loadedChunks := by
    intro c hc
    rw [mem_tick_loadedChunks]
    exact ⟨Or.inr hc, by omega⟩
  have hbound : ∀ c ∈ (tick cfg s).loadedChunks,
      chebDist c (playerCell cfg s) ≤ cfg.renderDistance + 1 := by
    intro c hc
    rw [mem_tick_loadedChunks] at hc
    exact hc.2
  have hfix : tick cfg (tick cfg s) = tick cfg s := by
    refine tick_fixed_of cfg (tick cfg s) ?_ ?_
    · intro c hc
      rw [hpc] at hc
      exact hmem c hc
    · intro c hc
      rw [hpc]
      exact hbound c hc
  refine ⟨?_, ?_, hfix⟩
  · rw [List.eq_nil_iff_forall_not_mem]
    intro c hc
    rw [mem_tickCreated, hpc] at hc
    exact hc.1 (hmem c hc.2)
  · rw [List.eq_nil_iff_forall_not_mem]
    intro c hc
    rw [mem_tickDestroyed, mem_loadPhase, hpc] at hc
    rcases hc with ⟨hc1 | hc1, hc2⟩
    · exact absurd (hbound c hc1) (by omega)
    · omega

/-- Claim C1, counterexample: in the reachable state `stateMoved` (player
moved from cell `(0,0)` to cell `(2,0)` after a first tick), the resident
set immediately after a `tick()` is **not** equal to the Chebyshev ball of
radius `renderDistance` around the player's cell: the stale cell `(0,0)`
sits at distance 2 > 1 yet stays resident (one cell of hysteresis). -/
theorem residency_equality_fails :
    residentSet (tick cfg100 stateMoved) ≠
      chebBall (playerCell cfg100 (tick cfg100 stateMoved))
        cfg100.renderDistance ∧
    (0, 0) ∈ (tick cfg100 stateMoved).loadedChunks ∧
    chebDist (0, 0) (playerCell cfg100 (tick cfg100 stateMoved)) = 2 := by
  have h0 : playerCell cfg100 initialState = (0, 0) := by
    unfold playerCell initialState cfg100 Vector3.zero
    norm_num
  have hM : playerCell cfg100 stateMoved = (2, 0) := by
    unfold playerCell stateMoved updatePlayerPosition cfg100
    norm_num
  have hmem0 : ((0, 0) : ChunkKey) ∈ (tick cfg100 initialState).loadedChunks := by
    rw [mem_tick_loadedChunks, h0]
    exact ⟨Or.inr (by decide), by decide⟩
  have h1 : ((0, 0) : ChunkKey) ∈ (tick cfg100 stateMoved).loadedChunks := by
    rw [mem_tick_loadedChunks, hM]
    exact ⟨Or.inl hmem0, by decide⟩
  have hdist : chebDist (0, 0) (playerCell cfg100 (tick cfg100 stateMoved)) = 2 := by
    rw [playerCell_tick, hM]
    decide
  have h2 : ((0, 0) : ChunkKey) ∉
      chebBall (playerCell cfg100 (tick cfg100 stateMoved))
        cfg100.renderDistance := by
    rw [mem_chebBall, hdist]
    decide
  refine ⟨?_, h1, hdist⟩
  intro h
  exact h2 (h ▸ List.mem_toFinset.mpr h1)

/-- Claim C1, amended: immediately after a `tick()`, the resident set is
sandwiched between the Chebyshev balls of radius `renderDistance` and
`renderDistance + 1` around the player's current cell: every cell within
`renderDistance` is resident, and every resident cell is within
`renderDistance + 1` (exact equality fails because of the one-cell
hysteresis; see the counterexample). -/
theorem residency_sandwich (cfg : WorldConfig) (s : WorldState) :
    chebBall (playerCell cfg s) cfg.renderDistance ⊆
      residentSet (tick cfg s) ∧
    residentSet (tick cfg s) ⊆
      chebBall (playerCell cfg s) (cfg.renderDistance + 1) := by
  refine ⟨chebBall_subset_tick cfg s, ?_⟩
  intro a ha
  rw [residentSet, List.mem_toFinset, mem_tick_loadedChunks] at ha
  exact mem_chebBall.mpr ha.2

/-- Claim C2: a resident cell is destroyed by a tick if and only if its
Chebyshev distance from the player's current cell exceeds
`renderDistance + 1`; in particular a cell at distance exactly
`renderDistance + 1` is not unloaded; and a destroyed cell's entry is
removed both from the resident set and from the chunk map. -/
theorem unload_iff_beyond (cfg : WorldConfig) (s : WorldState) (c : ChunkKey)
    (hres : c ∈ s.loadedChunks) :
    (c ∈ tickDestroyed cfg s ↔
      chebDist c (playerCell cfg s) > cfg.renderDistance + 1) ∧
    (chebDist c (playerCell cfg s) = cfg.renderDistance + 1 →
      c ∉ tickDestroyed cfg s) ∧
    (c ∈ tickDestroyed cfg s →
      c ∉ (tick cfg s).loadedChunks ∧ c ∉ chunkKeys (tick cfg s)) := by
  have hmem : c ∈ (loadPhase cfg s).loadedChunks :=
    mem_loadPhase.mpr (Or.inl hres)
  have hiff : c ∈ tickDestroyed cfg s ↔
      chebDist c (playerCell cfg s) > cfg.renderDistance + 1 := by
    rw [mem_tickDestroyed]
    exact and_iff_right hmem
  refine ⟨hiff, ?_, ?_⟩
  · intro heq hdes
    rw [hiff] at hdes
    omega
  · intro hdes
    have hgt := hiff.mp hdes
    constructor
    · rw [mem_tick_loadedChunks]
      rintro ⟨-, hle⟩
      omega
    · intro hc
      unfold chunkKeys at hc
      rw [tick_chunks] at hc
      rcases List.mem_map.mp hc with ⟨p, hp, rfl⟩
      rcases List.mem_filter.mp hp with ⟨-, hq⟩
      simp only [decide_eq_true_eq] at hq
      exact hq hdes

/-- Witness for C2: in `stateFar` the cell `(3, 0)` is resident at distance
3 from the player's cell `(0, 0)`, beyond `renderDistance + 1 = 2`. -/
theorem unload_iff_beyond_witness :
    ((3, 0) ∈ tickDestroyed cfg100 stateFar ↔
      chebDist (3, 0) (playerCell cfg100 stateFar) >
        cfg100.renderDistance + 1) ∧
    (chebDist (3, 0) (playerCell cfg100 stateFar) =
        cfg100.renderDistance + 1 →
      (3, 0) ∉ tickDestroyed cfg100 stateFar) ∧
    ((3, 0) ∈ tickDestroyed cfg100 stateFar →
      (3, 0) ∉ (tick cfg100 stateFar).loadedChunks ∧
      (3, 0) ∉ chunkKeys (tick cfg100 stateFar)) :=
  unload_iff_beyond cfg100 stateFar (3, 0) (by decide)

/-- Claim C5: from the empty initial state with the player at the world
origin, `cellSize = 100` and `renderDistance = 1`, the first `tick()`
creates exactly the 9 cells `{-1,0,1} × {-1,0,1}` (in loop order) and
destroys none. -/
theorem first_tick_initial_load :
    tickCreated cfg100 initialState =
      [(-1, -1), (-1, 0), (-1, 1), (0, -1), (0, 0), (0, 1),
        (1, -1), (1, 0), (1, 1)] ∧
    (tickCreated cfg100 initialState).toFinset =
      ({-1, 0, 1} : Finset ℤ) ×ˢ ({-1, 0, 1} : Finset ℤ) ∧
    (tickCreated cfg100 initialState).length = 9 ∧
    tickDestroyed cfg100 initialState = [] ∧
    residentSet (tick cfg100 initialState) =
      ({-1, 0, 1} : Finset ℤ) ×ˢ ({-1, 0, 1} : Finset ℤ) := by
  have h0 : playerCell cfg100 initialState = (0, 0) := by
    unfold playerCell initialState cfg100 Vector3.zero
    norm_num
  have hlist : tickCreated cfg100 initialState =
      [(-1, -1), (-1, 0), (-1, 1), (0, -1), (0, 0), (0, 1),
        (1, -1), (1, 0), (1, 1)] := by
    simp only [tickCreated, loadPhase, h0]
    decide
  have hdes : tickDestroyed cfg100 initialState = [] := by
    simp only [tickDestroyed, loadPhase, h0]
    decide
  have hres : (tick cfg100 initialState).loadedChunks =
      [(-1, -1), (-1, 0), (-1, 1), (0, -1), (0, 0), (0, 1),
        (1, -1), (1, 0), (1, 1)] := by
    simp only [tick, updateChunkLoading, loadPhase, h0]
    decide
  refine ⟨hlist, ?_, ?_, hdes, ?_⟩
  · rw [hlist]
    exact Finset.Subset.antisymm (by decide) (by decide)
  · rw [hlist]
    rfl
  · show (tick cfg100 initialState).loadedChunks.toFinset = _
    rw [hres]
    exact Finset.Subset.antisymm (by decide) (by decide)

/-- Claim C3: the terrain height is a pure, deterministic function of the
absolute world coordinates: two calls with the same `(x, z)` yield the same
value, and that value equals the sum of three sinusoidal octaves with
amplitudes 20/10/5 and frequency multipliers 10/20/40 applied after
normalising `x` and `z` by a period of 100 (`nx = (x/100) mod 1` being the
source language's remainder). -/
theorem getHeight_deterministic_formula :
    ∀ x z : ℝ, getHeight x z = getHeight x z ∧
      getHeight x z = specHeight x z := by
  intro x z
  refine ⟨rfl, ?_⟩
  simp only [getHeight, specHeight]
  ring

/-- Claim C4: the biome stored in a generated chunk is determined by the
straight-line distance `d` from the world origin to the chunk's centre:
village iff `d < 100`, forest iff `100 ≤ d < 300`, mountains iff
`300 ≤ d < 500`, desert iff `500 ≤ d`; in particular a cell centred at
distance 99 is a village and one centred at distance 101 is a forest. -/
theorem chunk_biome_by_distance :
    (∀ (cfg : WorldConfig) (cx cz : ℤ),
      ((generateChunk cfg cx cz).biome = Biome.village ↔
        centerDist cfg cx cz < 100) ∧
      ((generateChunk cfg cx cz).biome = Biome.forest ↔
        100 ≤ centerDist cfg cx cz ∧ centerDist cfg cx cz < 300) ∧
      ((generateChunk cfg cx cz).biome = Biome.mountains ↔
        300 ≤ centerDist cfg cx cz ∧ centerDist cfg cx cz < 500) ∧
      ((generateChunk cfg cx cz).biome = Biome.desert ↔
        500 ≤ centerDist cfg cx cz)) ∧
    centerDist cfg99 1 0 = 99 ∧
    (generateChunk cfg99 1 0).biome = Biome.village ∧
    centerDist cfg101 1 0 = 101 ∧
    (generateChunk cfg101 1 0).biome = Biome.forest := by
  have hmain : ∀ (cfg : WorldConfig) (cx cz : ℤ),
      ((generateChunk cfg cx cz).biome = Biome.village ↔
        centerDist cfg cx cz < 100) ∧
      ((generateChunk cfg cx cz).biome = Biome.forest ↔
        100 ≤ centerDist cfg cx cz ∧ centerDist cfg cx cz < 300) ∧
      ((generateChunk cfg cx cz).biome = Biome.mountains ↔
        300 ≤ centerDist cfg cx cz ∧ centerDist cfg cx cz < 500) ∧
      ((generateChunk cfg cx cz).biome = Biome.desert ↔
        500 ≤ centerDist cfg cx cz) := by
    intro cfg cx cz
    have hb : (generateChunk cfg cx cz).biome =
        getBiome ((cx * cfg.chunkSize : ℚ) : ℝ)
          ((cz * cfg.chunkSize : ℚ) : ℝ) :=
      getBiomeQ_eq _ _
    rw [hb]
    unfold centerDist
    simp only [getBiome]
    split_ifs with h1 h2 h3
    · exact ⟨iff_of_true rfl h1,
        iff_of_false (by decide) (fun h => by linarith [h.1]),
        iff_of_false (by decide) (fun h => by linarith [h.1]),
        iff_of_false (by decide) (fun h => by linarith)⟩
    · push_neg at h1
      exact ⟨iff_of_false (by decide) (fun h => by linarith),
        iff_of_true rfl ⟨h1, h2⟩,
        iff_of_false (by decide) (fun h => by linarith [h.1]),
        iff_of_false (by decide) (fun h => by linarith)⟩
    · push_neg at h1 h2
      exact ⟨iff_of_false (by decide) (fun h => by linarith),
        iff_of_false (by decide) (fun h => by linarith [h.2]),
        iff_of_true rfl ⟨h2, h3⟩,
        iff_of_false (by decide) (fun h => by linarith)⟩
    · push_neg at h1 h2 h3
      exact ⟨iff_of_false (by decide) (fun h => by linarith),
        iff_of_false (by decide) (fun h => by linarith [h.2]),
        iff_of_false (by decide) (fun h => by linarith [h.2]),
        iff_of_true rfl h3⟩
  have h99 : centerDist cfg99 1 0 = 99 := by
    unfold centerDist cfg99
    push_cast
    rw [show ((1 : ℝ) * 99) * (1 * 99) + (0 * 99) * (0 * 99) = 99 ^ 2 by ring]
    exact Real.sqrt_sq (by norm_num)
  have h101 : centerDist cfg101 1 0 = 101 := by
    unfold centerDist cfg101
    push_cast
    rw [show ((1 : ℝ) * 101) * (1 * 101) + (0 * 101) * (0 * 101) = 101 ^ 2 by
      ring]
    exact Real.sqrt_sq (by norm_num)
  refine ⟨hmain, h99, ?_, h101, ?_⟩
  · rw [(hmain cfg99 1 0).1, h99]
    norm_num
  · rw [(hmain cfg101 1 0).2.1, h101]
    norm_num

/-- Claim C7: the load/unload behaviour of `tick()` does not depend on
`maxChunks`, `enableLOD` or `enableDynamicLoading`: two configurations
agreeing on `chunkSize` and `renderDistance` produce identical ticks from
every state; the mesh resolution is the constant 50 subdivisions (no LOD
branch); and the resident chunk count is not capped at `maxChunks` (with
`maxChunks = 0` a tick still loads 9 chunks). -/
theorem tick_config_independent (cfg₁ cfg₂ : WorldConfig) (s : WorldState)
    (hs : cfg₁.chunkSize = cfg₂.chunkSize)
    (hr : cfg₁.renderDistance = cfg₂.renderDistance) :
    tick cfg₁ s = tick cfg₂ s ∧
    (∀ cx cz : ℤ, (generateChunk cfg₁ cx cz).subdivisions = 50) ∧
    ((tick cfgCap0 initialState).loadedChunks.length : ℤ) >
      cfgCap0.maxChunks := by
  have hfun : (fun (t : WorldState) (c : ChunkKey) =>
      loadChunk cfg₁ t c.1 c.2) = (fun t c => loadChunk cfg₂ t c.1 c.2) := by
    funext t c
    simp only [loadChunk, generateChunk, hs]
  refine ⟨?_, fun cx cz => rfl, ?_⟩
  · simp only [tick, updateChunkLoading, unloadDistantChunks, loadPhase,
      playerCell, hs, hr, hfun]
  · have h0 : playerCell cfgCap0 initialState = (0, 0) := by
      unfold playerCell initialState cfgCap0 Vector3.zero
      norm_num
    have hlen : (tick cfgCap0 initialState).loadedChunks.length = 9 := by
      simp only [tick, updateChunkLoading, loadPhase, h0]
      decide
    rw [hlen]
    decide

/-- Witness for C7: `cfg100` against a configuration differing in
`maxChunks`, `enableDynamicLoading` and `enableLOD` only. -/
theorem tick_config_independent_witness :
    tick cfg100 initialState = tick cfgNoExtras initialState ∧
    (∀ cx cz : ℤ, (generateChunk cfg100 cx cz).subdivisions = 50) ∧
    ((tick cfgCap0 initialState).loadedChunks.length : ℤ) >
      cfgCap0.maxChunks :=
  tick_config_independent cfg100 cfgNoExtras initialState rfl rfl

/-- Claim C9: in every reachable state the resident structures never hold two
cells with the same coordinate pair: the key list of the chunk map and the
loaded-chunk list are duplicate-free. -/
theorem resident_keys_nodup (cfg : WorldConfig) (s : WorldState)
    (h : Reachable cfg s) :
    (chunkKeys s).Nodup ∧ s.loadedChunks.Nodup := by
  obtain ⟨hsync, hnd⟩ := reachable_goodState h
  exact ⟨hsync ▸ hnd, hnd⟩

/-- Witness for C9: the state after the first tick from the initial state. -/
theorem resident_keys_nodup_witness :
    (chunkKeys (tick cfg100 initialState)).Nodup ∧
    (tick cfg100 initialState).loadedChunks.Nodup :=
  resident_keys_nodup cfg100 (tick cfg100 initialState)
    (Reachable.tick Reachable.init)

/-- Claim C10: the two residency structures always agree: in every reachable
state the loaded-chunk set equals exactly the key set of the chunk map (in
fact the key list equals the loaded list, element for element), and every
operation preserves this. -/
theorem chunks_loadedChunks_agree (cfg : WorldConfig) (s : WorldState)
    (h : Reachable cfg s) :
    chunkKeys s = s.loadedChunks ∧
    (chunkKeys s).toFinset = residentSet s := by
  have hg := reachable_goodState h
  exact ⟨hg.1, by rw [hg.1]; rfl⟩

/-- Witness for C10: the state after the first tick from the initial
state. -/
theorem chunks_loadedChunks_agree_witness :
    chunkKeys (tick cfg100 initialState) =
      (tick cfg100 initialState).loadedChunks ∧
    (chunkKeys (tick cfg100 initialState)).toFinset =
      residentSet (tick cfg100 initialState) :=
  chunks_loadedChunks_agree cfg100 (tick cfg100 initialState)
    (Reachable.tick Reachable.init)

end AdvancedWorld
